import Mathlib

/-!
Verification of the mmm pricing / eligibility core.

Shallow embedding of `src/programs/mmm/src/util.rs` and
`src/programs/mmm/src/instructions/update_pool.rs`.
Machine integers (u8/u16/u64/u128) are modelled as `Nat` with explicit
range bounds (`< 2 ^ 64`, …) and Rust's checked arithmetic as
`Option Nat`; fallible functions return `Except ProgramError`.
-/

namespace Mmm

/-- Error kinds reachable from the embedded functions: the `MMMErrorCode`
variants used in `util.rs` and `update_pool.rs`, the two anchor framework
errors raised by `check_allowlists_for_mint`, a deserialization failure for
`Metadata::from_account_info`, and the external transfer failure that
`try_close_pool` propagates. -/
inductive ProgramError where
  | InvalidCurveType
  | InvalidCurveDelta
  | InvalidLPFeeBP
  | NumericOverflow
  | InvalidAllowLists
  | InvalidMasterEdition
  | AccountOwnedByWrongProgram
  | ConstraintSeeds
  | MetadataDeserializeError
  | TransferFailed
  deriving DecidableEq, Repr

/-- Modulus of the `u64` type. -/
def U64_MOD : Nat := 2 ^ 64

/-- Modulus of the `u128` type. -/
def U128_MOD : Nat := 2 ^ 128

/-- Rust `u64::checked_add`. -/
def checked_add_u64 (a b : Nat) : Option Nat :=
  if a + b < U64_MOD then some (a + b) else none

/-- Rust `u64::checked_sub`. -/
def checked_sub_u64 (a b : Nat) : Option Nat :=
  if b ≤ a then some (a - b) else none

/-- Rust `u64::checked_mul`. -/
def checked_mul_u64 (a b : Nat) : Option Nat :=
  if a * b < U64_MOD then some (a * b) else none

/-- Rust `u128::checked_add`. -/
def checked_add_u128 (a b : Nat) : Option Nat :=
  if a + b < U128_MOD then some (a + b) else none

/-- Rust `u128::checked_mul`. -/
def checked_mul_u128 (a b : Nat) : Option Nat :=
  if a * b < U128_MOD then some (a * b) else none

/-- Rust `checked_div` (for both u64 and u128 the only failure is a zero
divisor; the quotient never exceeds the dividend). -/
def checked_div (a b : Nat) : Option Nat :=
  if b = 0 then none else some (a / b)

/-- Modelled from the spec: curve-kind discriminants (`state.rs` is not under
`src/`); the spec fixes LINEAR(0) and EXPONENTIAL(1), matching the comments
in `check_curve`. -/
def CURVE_KIND_LINEAR : Nat := 0

/-- Modelled from the spec: EXPONENTIAL curve discriminant, value 1. -/
def CURVE_KIND_EXP : Nat := 1

/-- Pool state (`state.rs` fields as read by `util.rs` and
`update_pool.rs`): `spot_price : u64`, `curve_type : u8`,
`curve_delta : u64`, `reinvest : bool`, `expiry : i64`, `lp_fee_bp : u16`,
`referral_bp : u16`, `sellside_orders_count : u64`. Identity fields
(`uuid`, `owner`, `referral`) are used only for address derivation and are
omitted. -/
structure Pool where
  spot_price : Nat
  curve_type : Nat
  curve_delta : Nat
  reinvest : Bool
  expiry : Int
  lp_fee_bp : Nat
  referral_bp : Nat
  sellside_orders_count : Nat
  deriving DecidableEq, Repr

/-- Machine-width bounds of the pool's integer fields. -/
def Pool.WF (pool : Pool) : Prop :=
  pool.spot_price < 2 ^ 64 ∧ pool.curve_type < 2 ^ 8 ∧
  pool.curve_delta < 2 ^ 64 ∧ pool.lp_fee_bp < 2 ^ 16 ∧
  pool.referral_bp < 2 ^ 16 ∧ pool.sellside_orders_count < 2 ^ 64

instance (pool : Pool) : Decidable pool.WF := by
  unfold Pool.WF
  infer_instance

/-- `check_curve` from `util.rs` lines 97-112. -/
def check_curve (curve_type : Nat) (curve_delta : Nat) : Except ProgramError Unit :=
  if curve_type > 1 then
    .error .InvalidCurveType
  else if curve_type = 1 ∧ curve_delta > 10000 then
    .error .InvalidCurveDelta
  else
    .ok ()

/-- `get_sol_lp_fee` from `util.rs` lines 114-132: widened `u128` multiply
of `total_sol_price` by `lp_fee_bp`, checked divide by 10000, and the final
`as u64` narrowing cast (`% 2 ^ 64`). -/
def get_sol_lp_fee (pool : Pool) (buyside_sol_escrow_balance : Nat)
    (total_sol_price : Nat) : Except ProgramError Nat :=
  if pool.sellside_orders_count < 1 then
    .ok 0
  else if buyside_sol_escrow_balance < pool.spot_price then
    .ok 0
  else
    match checked_mul_u128 total_sol_price pool.lp_fee_bp with
    | none => .error .NumericOverflow
    | some m =>
      match checked_div m 10000 with
      | none => .error .NumericOverflow
      | some d => .ok (d % U64_MOD)

/-- `get_sol_referral_fee` from `util.rs` lines 134-140: same arithmetic as
the lp fee but without the suppression rules. -/
def get_sol_referral_fee (pool : Pool) (total_sol_price : Nat) :
    Except ProgramError Nat :=
  match checked_mul_u128 total_sol_price pool.referral_bp with
  | none => .error .NumericOverflow
  | some m =>
    match checked_div m 10000 with
    | none => .error .NumericOverflow
    | some d => .ok (d % U64_MOD)

/-- Linear fulfill-buy arithmetic (`util.rs` lines 153-175): every failing
checked step maps to `NumericOverflow`, so the branch is the `Option` chain
with a single error at the end. Computes `n*(2*p-(n-1)*delta)/2` and
`p - n*delta` in checked u64 arithmetic. -/
def linear_fulfill_buy (p delta n : Nat) : Option (Nat × Nat) := do
  let twop ← checked_mul_u64 p 2
  let nm1 ← checked_sub_u64 n 1
  let step ← checked_mul_u64 nm1 delta
  let base ← checked_sub_u64 twop step
  let prod ← checked_mul_u64 n base
  let total_price ← checked_div prod 2
  let ndelta ← checked_mul_u64 n delta
  let final_price ← checked_sub_u64 p ndelta
  some (total_price, final_price)

/-- Linear fulfill-sell arithmetic (`util.rs` lines 201-222): computes
`n*(2*p+(n-1)*delta)/2` and `p + n*delta` in checked u64 arithmetic. -/
def linear_fulfill_sell (p delta n : Nat) : Option (Nat × Nat) := do
  let twop ← checked_mul_u64 p 2
  let nm1 ← checked_sub_u64 n 1
  let step ← checked_mul_u64 nm1 delta
  let base ← checked_add_u64 twop step
  let prod ← checked_mul_u64 n base
  let total_price ← checked_div prod 2
  let ndelta ← checked_mul_u64 n delta
  let final_price ← checked_add_u64 p ndelta
  some (total_price, final_price)

/-- Exponential fulfill-buy loop (`util.rs` lines 176-195): `total_price`
is a u64 accumulator, `curr_price` a u128; each iteration adds the
truncated (`as u64`) current price and rescales by `10000/(delta+10000)`. -/
def exp_fulfill_buy_loop (delta : Nat) :
    Nat → Nat → Nat → Option (Nat × Nat)
  | 0, total_price, curr_price => some (total_price, curr_price)
  | k + 1, total_price, curr_price => do
    let total' ← checked_add_u64 total_price (curr_price % U64_MOD)
    let num ← checked_mul_u128 curr_price 10000
    let den ← checked_add_u128 delta 10000
    let curr' ← checked_div num den
    exp_fulfill_buy_loop delta k total' curr'

/-- Exponential fulfill-sell loop (`util.rs` lines 224-243): each iteration
adds the truncated current price and rescales by `(delta+10000)/10000`. -/
def exp_fulfill_sell_loop (delta : Nat) :
    Nat → Nat → Nat → Option (Nat × Nat)
  | 0, total_price, curr_price => some (total_price, curr_price)
  | k + 1, total_price, curr_price => do
    let total' ← checked_add_u64 total_price (curr_price % U64_MOD)
    let factor ← checked_add_u128 delta 10000
    let num ← checked_mul_u128 curr_price factor
    let curr' ← checked_div num 10000
    exp_fulfill_sell_loop delta k total' curr'

/-- `get_sol_total_price_and_next_price` from `util.rs` lines 142-249.
The returned next price of the exponential branches carries the source's
final `curr_price as u64` cast (`% 2 ^ 64`). -/
def get_sol_total_price_and_next_price (pool : Pool) (n : Nat)
    (fulfill_buy : Bool) : Except ProgramError (Nat × Nat) :=
  let p := pool.spot_price
  let delta := pool.curve_delta
  match fulfill_buy with
  | true =>
    if pool.curve_type = CURVE_KIND_LINEAR then
      match linear_fulfill_buy p delta n with
      | none => .error .NumericOverflow
      | some r => .ok r
    else if pool.curve_type = CURVE_KIND_EXP then
      match exp_fulfill_buy_loop delta n 0 p with
      | none => .error .NumericOverflow
      | some (total_price, curr_price) => .ok (total_price, curr_price % U64_MOD)
    else
      .error .InvalidCurveType
  | false =>
    if pool.curve_type = CURVE_KIND_LINEAR then
      match linear_fulfill_sell p delta n with
      | none => .error .NumericOverflow
      | some r => .ok r
    else if pool.curve_type = CURVE_KIND_EXP then
      match exp_fulfill_sell_loop delta n 0 p with
      | none => .error .NumericOverflow
      | some (total_price, curr_price) => .ok (total_price, curr_price % U64_MOD)
    else
      .error .InvalidCurveType

/-- Modelled from the spec: allowlist kind discriminants live in `state.rs`
(not under `src/`); the spec fixes the four recognized kinds
EMPTY / FIRST_VERIFIED_CREATOR_ADDRESS / MINT / VERIFIED_COLLECTION and
`kind` is a `u8`; the discriminants are modelled as 0,1,2,3 (any four
distinct `u8` values give the same behaviour for the embedded loop). -/
def ALLOWLIST_KIND_EMPTY : Nat := 0

/-- Modelled from the spec: first-verified-creator-address kind, value 1. -/
def ALLOWLIST_KIND_FVCA : Nat := 1

/-- Modelled from the spec: mint kind, value 2. -/
def ALLOWLIST_KIND_MINT : Nat := 2

/-- Modelled from the spec: verified-collection kind, value 3. -/
def ALLOWLIST_KIND_MCC : Nat := 3

/-- Allowlist entry: `kind : u8` and a 32-byte address-shaped `value`,
modelled as a `Nat`. -/
structure Allowlist where
  kind : Nat
  value : Nat
  deriving DecidableEq, Repr

/-- Creator record of the parsed metadata (`share` is never read by the
embedded code and is omitted). -/
structure Creator where
  address : Nat
  verified : Bool
  deriving DecidableEq, Repr

/-- Collection record of the parsed metadata. -/
structure Collection where
  verified : Bool
  key : Nat
  deriving DecidableEq, Repr

/-- The `data` field of the parsed metadata; only `creators` is read. -/
structure MetadataData where
  creators : Option (List Creator)
  deriving DecidableEq, Repr

/-- Parsed `Metadata`; only `data.creators` and `collection` are read. -/
structure ParsedMetadata where
  data : MetadataData
  collection : Option Collection
  deriving DecidableEq, Repr

/-- Facts about the metadata / master-edition accounts consumed by the
structural prelude of `check_allowlists_for_mint` (`util.rs` lines 40-57):
the owner and PDA comparisons and the borrowed first data byte are external
account state, carried here as plain values. -/
structure AccountFacts where
  metadata_owner_is_token_metadata : Bool
  metadata_pda_matches : Bool
  master_edition_pda_matches : Bool
  parsed_metadata : Option ParsedMetadata
  master_edition_is_empty : Bool
  master_edition_owner_is_token_metadata : Bool
  master_edition_version : Nat
  deriving DecidableEq, Repr

/-- `check_master_edition` from `util.rs` lines 11-14: the first byte of the
edition account must be 2 or 6. -/
def check_master_edition (version : Nat) : Bool :=
  version = 2 || version = 6

/-- Allowlist scan of `check_allowlists_for_mint` (`util.rs` lines 59-95):
first match returns `Ok`, an unrecognized kind returns `InvalidAllowLists`
immediately, and an exhausted list returns `InvalidAllowLists`. -/
def allowlists_scan (mint_key : Nat) (parsed_metadata : ParsedMetadata) :
    List Allowlist → Except ProgramError Unit
  | [] => .error .InvalidAllowLists
  | allowlist_val :: rest =>
    if allowlist_val.kind = ALLOWLIST_KIND_EMPTY then
      allowlists_scan mint_key parsed_metadata rest
    else if allowlist_val.kind = ALLOWLIST_KIND_FVCA then
      match parsed_metadata.data.creators with
      | some creators =>
        match creators with
        | [] => allowlists_scan mint_key parsed_metadata rest
        | c0 :: _ =>
          if c0.address = allowlist_val.value ∧ c0.verified then
            .ok ()
          else
            allowlists_scan mint_key parsed_metadata rest
      | none => allowlists_scan mint_key parsed_metadata rest
    else if allowlist_val.kind = ALLOWLIST_KIND_MINT then
      if mint_key = allowlist_val.value then
        .ok ()
      else
        allowlists_scan mint_key parsed_metadata rest
    else if allowlist_val.kind = ALLOWLIST_KIND_MCC then
      match parsed_metadata.collection with
      | some collection_data =>
        if collection_data.key = allowlist_val.value ∧ collection_data.verified then
          .ok ()
        else
          allowlists_scan mint_key parsed_metadata rest
      | none => allowlists_scan mint_key parsed_metadata rest
    else
      .error .InvalidAllowLists

/-- `check_allowlists_for_mint` from `util.rs` lines 27-95: the structural
prelude over the account facts, then the allowlist scan. -/
def check_allowlists_for_mint (allowlists : List Allowlist) (mint_key : Nat)
    (facts : AccountFacts) : Except ProgramError Unit :=
  if ¬ facts.metadata_owner_is_token_metadata then
    .error .AccountOwnedByWrongProgram
  else if ¬ facts.metadata_pda_matches then
    .error .ConstraintSeeds
  else if ¬ facts.master_edition_pda_matches then
    .error .ConstraintSeeds
  else
    match facts.parsed_metadata with
    | none => .error .MetadataDeserializeError
    | some parsed_metadata =>
      if ¬ facts.master_edition_is_empty then
        if ¬ facts.master_edition_owner_is_token_metadata then
          .error .AccountOwnedByWrongProgram
        else if ¬ check_master_edition facts.master_edition_version then
          .error .InvalidMasterEdition
        else
          allowlists_scan mint_key parsed_metadata allowlists
      else
        allowlists_scan mint_key parsed_metadata allowlists

/-- `try_close_pool` from `util.rs` lines 251-292, as a transition on the
pool account's backing bytes. The system-program transfer is an external
call whose success is the `transfer_ok` input; on success the data is
zeroed (`copy_from_slice(&[0; Pool::LEN])`, with `pool_data.length` equal
to `Pool::LEN`), on failure the error propagates before any write. -/
def try_close_pool (pool : Pool) (pool_data : List Nat)
    (buyside_sol_escrow_balance : Nat) (transfer_ok : Bool) :
    Except ProgramError (List Nat) :=
  if pool.sellside_orders_count ≠ 0 then
    .ok pool_data
  else if buyside_sol_escrow_balance ≠ 0 then
    .ok pool_data
  else if transfer_ok then
    .ok (List.replicate pool_data.length 0)
  else
    .error .TransferFailed

/-- `UpdatePoolArgs` from `update_pool.rs` lines 9-17. -/
structure UpdatePoolArgs where
  spot_price : Nat
  curve_type : Nat
  curve_delta : Nat
  reinvest : Bool
  expiry : Int
  lp_fee_bp : Nat
  deriving DecidableEq, Repr

/-- Anchor account constraint of `UpdatePool` (`update_pool.rs` line 27):
`args.lp_fee_bp <= 10000`, else `InvalidLPFeeBP`; checked before the
handler body runs. -/
def update_pool_accounts_check (args : UpdatePoolArgs) :
    Except ProgramError Unit :=
  if args.lp_fee_bp ≤ 10000 then .ok () else .error .InvalidLPFeeBP

/-- `handler` from `update_pool.rs` lines 33-47: validates the curve, then
writes the six argument fields into the pool. -/
def update_pool_handler (pool : Pool) (args : UpdatePoolArgs) :
    Except ProgramError Pool :=
  match check_curve args.curve_type args.curve_delta with
  | .error e => .error e
  | .ok () =>
    .ok { pool with
          spot_price := args.spot_price
          curve_type := args.curve_type
          curve_delta := args.curve_delta
          reinvest := args.reinvest
          expiry := args.expiry
          lp_fee_bp := args.lp_fee_bp }

/-- Full update-pool instruction: the anchor constraint, then the handler. -/
def update_pool (pool : Pool) (args : UpdatePoolArgs) :
    Except ProgramError Pool :=
  match update_pool_accounts_check args with
  | .error e => .error e
  | .ok () => update_pool_handler pool args

/-- Predicate for the four allowlist kinds the scan recognizes. -/
def allowlist_kind_recognized (k : Nat) : Bool :=
  k == ALLOWLIST_KIND_EMPTY || k == ALLOWLIST_KIND_FVCA ||
  k == ALLOWLIST_KIND_MINT || k == ALLOWLIST_KIND_MCC

/-- Per-entry match predicate of the allowlist scan: whether a single
(recognized-kind) entry accepts the NFT. -/
def entry_matches (mint_key : Nat) (md : ParsedMetadata) (a : Allowlist) : Bool :=
  if a.kind = ALLOWLIST_KIND_FVCA then
    match md.data.creators with
    | some (c0 :: _) => c0.address == a.value && c0.verified
    | _ => false
  else if a.kind = ALLOWLIST_KIND_MINT then
    mint_key == a.value
  else if a.kind = ALLOWLIST_KIND_MCC then
    match md.collection with
    | some cd => cd.key == a.value && cd.verified
    | _ => false
  else
    false

instance exceptDecidableEq {ε α : Type} [DecidableEq ε] [DecidableEq α] :
    DecidableEq (Except ε α)
  | .error e, .error f =>
    if h : e = f then .isTrue (h ▸ rfl)
    else .isFalse fun hc => h (Except.error.inj hc)
  | .error _, .ok _ => .isFalse fun hc => Except.noConfusion hc
  | .ok _, .error _ => .isFalse fun hc => Except.noConfusion hc
  | .ok x, .ok y =>
    if h : x = y then .isTrue (h ▸ rfl)
    else .isFalse fun hc => h (Except.ok.inj hc)

lemma opt_if_eq_some {c : Prop} [Decidable c] {x y : Nat}
    (h : (if c then some x else none) = some y) : c ∧ y = x := by
  by_cases hc : c
  · rw [if_pos hc] at h
    exact ⟨hc, (Option.some.inj h).symm⟩
  · rw [if_neg hc] at h
    cases h

lemma checked_div_eq_some {a b y : Nat} (h : checked_div a b = some y) :
    b ≠ 0 ∧ y = a / b := by
  unfold checked_div at h
  by_cases hb : b = 0
  · rw [if_pos hb] at h
    cases h
  · rw [if_neg hb] at h
    exact ⟨hb, (Option.some.inj h).symm⟩

lemma linear_fulfill_buy_some {p delta n t nx : Nat}
    (h : linear_fulfill_buy p delta n = some (t, nx)) :
    1 ≤ n ∧ n * delta ≤ p ∧
    t = n * (2 * p - (n - 1) * delta) / 2 ∧ nx = p - n * delta := by
  simp only [linear_fulfill_buy, checked_mul_u64, checked_sub_u64,
    Option.bind_eq_bind, Option.bind_eq_some] at h
  obtain ⟨tw, htw, nm1, hnm1, st, hst, base, hbase, prod, hprod, tot, htot,
    nd, hnd, fin, hfin, hpair⟩ := h
  obtain ⟨h1, rfl⟩ := opt_if_eq_some htw
  obtain ⟨h2, rfl⟩ := opt_if_eq_some hnm1
  obtain ⟨h3, rfl⟩ := opt_if_eq_some hst
  obtain ⟨h4, rfl⟩ := opt_if_eq_some hbase
  obtain ⟨h5, rfl⟩ := opt_if_eq_some hprod
  obtain ⟨h6, rfl⟩ := checked_div_eq_some htot
  obtain ⟨h7, rfl⟩ := opt_if_eq_some hnd
  obtain ⟨h8, rfl⟩ := opt_if_eq_some hfin
  obtain ⟨rfl, rfl⟩ := Prod.mk.inj (Option.some.inj hpair)
  refine ⟨h2, h8, ?_, rfl⟩
  rw [Nat.mul_comm p 2]

lemma linear_fulfill_sell_some {p delta n t nx : Nat}
    (h : linear_fulfill_sell p delta n = some (t, nx)) :
    1 ≤ n ∧ p + n * delta < U64_MOD ∧
    t = n * (2 * p + (n - 1) * delta) / 2 ∧ nx = p + n * delta := by
  simp only [linear_fulfill_sell, checked_mul_u64, checked_sub_u64,
    checked_add_u64, Option.bind_eq_bind, Option.bind_eq_some] at h
  obtain ⟨tw, htw, nm1, hnm1, st, hst, base, hbase, prod, hprod, tot, htot,
    nd, hnd, fin, hfin, hpair⟩ := h
  obtain ⟨h1, rfl⟩ := opt_if_eq_some htw
  obtain ⟨h2, rfl⟩ := opt_if_eq_some hnm1
  obtain ⟨h3, rfl⟩ := opt_if_eq_some hst
  obtain ⟨h4, rfl⟩ := opt_if_eq_some hbase
  obtain ⟨h5, rfl⟩ := opt_if_eq_some hprod
  obtain ⟨h6, rfl⟩ := checked_div_eq_some htot
  obtain ⟨h7, rfl⟩ := opt_if_eq_some hnd
  obtain ⟨h8, rfl⟩ := opt_if_eq_some hfin
  obtain ⟨rfl, rfl⟩ := Prod.mk.inj (Option.some.inj hpair)
  refine ⟨h2, h8, ?_, rfl⟩
  rw [Nat.mul_comm p 2]

lemma allowlists_scan_eq_any (mint_key : Nat) (md : ParsedMetadata) :
    ∀ l : List Allowlist,
    (∀ a ∈ l, allowlist_kind_recognized a.kind = true) →
    allowlists_scan mint_key md l =
      (if l.any (entry_matches mint_key md) then .ok ()
       else .error .InvalidAllowLists) := by
  intro l
  induction l with
  | nil => intro _; rfl
  | cons a rest ih =>
    intro hrec
    have ha := hrec a (List.mem_cons_self a rest)
    have hres := ih fun b hb => hrec b (List.mem_cons_of_mem a hb)
    have hk : a.kind = 0 ∨ a.kind = 1 ∨ a.kind = 2 ∨ a.kind = 3 := by
      simp [allowlist_kind_recognized, ALLOWLIST_KIND_EMPTY,
        ALLOWLIST_KIND_FVCA, ALLOWLIST_KIND_MINT, ALLOWLIST_KIND_MCC] at ha
      omega
    unfold allowlists_scan
    rcases hk with hk | hk | hk | hk
    · simp [hk, entry_matches, ALLOWLIST_KIND_EMPTY, ALLOWLIST_KIND_FVCA,
        ALLOWLIST_KIND_MINT, ALLOWLIST_KIND_MCC, hres]
    · cases hcr : md.data.creators with
      | none =>
        simp [hk, entry_matches, ALLOWLIST_KIND_EMPTY, ALLOWLIST_KIND_FVCA,
          ALLOWLIST_KIND_MINT, ALLOWLIST_KIND_MCC, hcr, hres]
      | some creators =>
        cases creators with
        | nil =>
          simp [hk, entry_matches, ALLOWLIST_KIND_EMPTY, ALLOWLIST_KIND_FVCA,
            ALLOWLIST_KIND_MINT, ALLOWLIST_KIND_MCC, hcr, hres]
        | cons c0 cs =>
          by_cases hm : c0.address = a.value ∧ c0.verified = true
          · simp [hk, entry_matches, ALLOWLIST_KIND_EMPTY, ALLOWLIST_KIND_FVCA,
              ALLOWLIST_KIND_MINT, ALLOWLIST_KIND_MCC, hcr, hm.1, hm.2]
          · simp [hk, entry_matches, ALLOWLIST_KIND_EMPTY, ALLOWLIST_KIND_FVCA,
              ALLOWLIST_KIND_MINT, ALLOWLIST_KIND_MCC, hcr, hm, hres]
    · by_cases hm : mint_key = a.value
      · simp [hk, entry_matches, ALLOWLIST_KIND_EMPTY, ALLOWLIST_KIND_FVCA,
          ALLOWLIST_KIND_MINT, ALLOWLIST_KIND_MCC, hm]
      · simp [hk, entry_matches, ALLOWLIST_KIND_EMPTY, ALLOWLIST_KIND_FVCA,
          ALLOWLIST_KIND_MINT, ALLOWLIST_KIND_MCC, hm, hres]
    · cases hcl : md.collection with
      | none =>
        simp [hk, entry_matches, ALLOWLIST_KIND_EMPTY, ALLOWLIST_KIND_FVCA,
          ALLOWLIST_KIND_MINT, ALLOWLIST_KIND_MCC, hcl, hres]
      | some cd =>
        by_cases hm : cd.key = a.value ∧ cd.verified = true
        · simp [hk, entry_matches, ALLOWLIST_KIND_EMPTY, ALLOWLIST_KIND_FVCA,
            ALLOWLIST_KIND_MINT, ALLOWLIST_KIND_MCC, hcl, hm.1, hm.2]
        · simp [hk, entry_matches, ALLOWLIST_KIND_EMPTY, ALLOWLIST_KIND_FVCA,
            ALLOWLIST_KIND_MINT, ALLOWLIST_KIND_MCC, hcl, hm, hres]

/-- C1 (counterexample): for an EXPONENTIAL pool with spot_price 1000 and
curve_delta 1000, selling n = 2 to the pool does NOT return
(total_price, next_spot_price) = (2100, 1100) as the claim states: the loop
runs n = 2 rescaling steps, so the next spot price is 1210, not 1100. -/
theorem C1_exp_sell_example_counterexample :
    get_sol_total_price_and_next_price
      ⟨1000, CURVE_KIND_EXP, 1000, false, 0, 0, 0, 0⟩ 2 false ≠
      .ok (2100, 1100) := by
  decide

/-- C1 (amended): for an EXPONENTIAL pool with spot_price 1000 and
curve_delta 1000, selling n = 2 to the pool returns total_price 2100
(= 1000 + 1100) and next_spot_price 1210 (= 1100 * 11000 / 10000, the
price after the second step). -/
theorem C1_exp_sell_example :
    get_sol_total_price_and_next_price
      ⟨1000, CURVE_KIND_EXP, 1000, false, 0, 0, 0, 0⟩ 2 false =
      .ok (2100, 1210) := by
  decide

/-- C2 (counterexample): the verdict of `check_allowlists_for_mint` is NOT
invariant under every permutation of every entry sequence: with entries
[MINT-match, unrecognized-kind-9] the scan accepts before reaching the bad
entry, while the permuted [unrecognized-kind-9, MINT-match] fails with
InvalidAllowLists at the first entry, for an NFT passing all structural
checks. -/
theorem C2_allowlist_order_counterexample :
    (([⟨ALLOWLIST_KIND_MINT, 5⟩, ⟨9, 0⟩] : List Allowlist).Perm
      [⟨9, 0⟩, ⟨ALLOWLIST_KIND_MINT, 5⟩]) ∧
    check_allowlists_for_mint [⟨ALLOWLIST_KIND_MINT, 5⟩, ⟨9, 0⟩] 5
      ⟨true, true, true, some ⟨⟨none⟩, none⟩, true, false, 0⟩ = .ok () ∧
    check_allowlists_for_mint [⟨9, 0⟩, ⟨ALLOWLIST_KIND_MINT, 5⟩] 5
      ⟨true, true, true, some ⟨⟨none⟩, none⟩, true, false, 0⟩ =
      .error .InvalidAllowLists :=
  ⟨List.Perm.swap (⟨9, 0⟩ : Allowlist) (⟨ALLOWLIST_KIND_MINT, 5⟩ : Allowlist) [],
   by decide, by decide⟩

/-- C2 (amended): for every sequence of allowlist entries whose kinds are
all recognized (EMPTY, FVCA, MINT, MCC), every permutation of it, and every
NFT (mint key and account facts), `check_allowlists_for_mint` returns the
same verdict on the permuted sequence as on the original. -/
theorem C2_allowlist_order_invariance (l1 l2 : List Allowlist)
    (mint_key : Nat) (facts : AccountFacts) (hperm : l1.Perm l2)
    (hrec : ∀ a ∈ l1, allowlist_kind_recognized a.kind = true) :
    check_allowlists_for_mint l1 mint_key facts =
      check_allowlists_for_mint l2 mint_key facts := by
  have hrec2 : ∀ a ∈ l2, allowlist_kind_recognized a.kind = true :=
    fun a ha => hrec a (hperm.mem_iff.mpr ha)
  have hscan : ∀ md : ParsedMetadata,
      allowlists_scan mint_key md l1 = allowlists_scan mint_key md l2 := by
    intro md
    rw [allowlists_scan_eq_any mint_key md l1 hrec,
      allowlists_scan_eq_any mint_key md l2 hrec2]
    have hany : l1.any (entry_matches mint_key md) =
        l2.any (entry_matches mint_key md) := by
      cases h1 : l1.any (entry_matches mint_key md) with
      | true =>
        rw [List.any_eq_true] at h1
        obtain ⟨x, hx, hfx⟩ := h1
        symm
        rw [List.any_eq_true]
        exact ⟨x, hperm.mem_iff.mp hx, hfx⟩
      | false =>
        rw [List.any_eq_false] at h1
        symm
        rw [List.any_eq_false]
        intro x hx
        exact h1 x (hperm.mem_iff.mpr hx)
    rw [hany]
  unfold check_allowlists_for_mint
  cases facts.parsed_metadata with
  | none => rfl
  | some md =>
    split_ifs <;> first | rfl | exact hscan md

/-- C2 (witness): concrete application of the order-invariance theorem to
the swap of a two-entry list of recognized kinds. -/
theorem C2_allowlist_order_invariance_witness :
    check_allowlists_for_mint
      [⟨ALLOWLIST_KIND_FVCA, 11⟩, ⟨ALLOWLIST_KIND_MINT, 5⟩] 5
      ⟨true, true, true, some ⟨⟨none⟩, none⟩, true, false, 0⟩ =
    check_allowlists_for_mint
      [⟨ALLOWLIST_KIND_MINT, 5⟩, ⟨ALLOWLIST_KIND_FVCA, 11⟩] 5
      ⟨true, true, true, some ⟨⟨none⟩, none⟩, true, false, 0⟩ :=
  C2_allowlist_order_invariance
    [⟨ALLOWLIST_KIND_FVCA, 11⟩, ⟨ALLOWLIST_KIND_MINT, 5⟩]
    [⟨ALLOWLIST_KIND_MINT, 5⟩, ⟨ALLOWLIST_KIND_FVCA, 11⟩] 5
    ⟨true, true, true, some ⟨⟨none⟩, none⟩, true, false, 0⟩
    (List.Perm.swap (⟨ALLOWLIST_KIND_MINT, 5⟩ : Allowlist)
      (⟨ALLOWLIST_KIND_FVCA, 11⟩ : Allowlist) [])
    (by decide)

/-- C3: for every pool, escrow balance and total price, if the pool has no
sell-side orders (`sellside_orders_count < 1`) or the escrow balance is
below the spot price, `get_sol_lp_fee` returns Ok 0, regardless of
`total_price` and `lp_fee_bp`. -/
theorem C3_lp_fee_suppression (pool : Pool) (bal total : Nat)
    (h : pool.sellside_orders_count < 1 ∨ bal < pool.spot_price) :
    get_sol_lp_fee pool bal total = .ok 0 := by
  unfold get_sol_lp_fee
  split_ifs with h1 h2
  · rfl
  · rfl
  · omega

/-- C3 (witness): a pool with zero sell-side orders and huge lp_fee_bp
still gets lp fee 0. -/
theorem C3_lp_fee_suppression_witness :
    get_sol_lp_fee ⟨1000, 0, 0, false, 0, 9999, 0, 0⟩ 5 123456 = .ok 0 :=
  C3_lp_fee_suppression ⟨1000, 0, 0, false, 0, 9999, 0, 0⟩ 5 123456
    (Or.inl (by decide))

/-- C4: for every LINEAR pool and n ≥ 1 for which the checked arithmetic
succeeds, buying n from the pool returns
total_price = n*(2*p - (n-1)*delta)/2 and next_spot_price = p - n*delta;
and for p = 1000, delta = 100, n = 3 it returns (2700, 700). -/
theorem C4_linear_buy_closed_form :
    (∀ (pool : Pool) (n total next : Nat),
      pool.curve_type = CURVE_KIND_LINEAR → 1 ≤ n →
      get_sol_total_price_and_next_price pool n true = .ok (total, next) →
      total = n * (2 * pool.spot_price - (n - 1) * pool.curve_delta) / 2 ∧
      next = pool.spot_price - n * pool.curve_delta) ∧
    get_sol_total_price_and_next_price
      ⟨1000, CURVE_KIND_LINEAR, 100, false, 0, 0, 0, 0⟩ 3 true =
      .ok (2700, 700) := by
  constructor
  · intro pool n total next hc _hn h
    simp only [get_sol_total_price_and_next_price, hc, if_pos] at h
    cases hb : linear_fulfill_buy pool.spot_price pool.curve_delta n with
    | none => rw [hb] at h; cases h
    | some r =>
      obtain ⟨t', nx'⟩ := r
      rw [hb] at h
      obtain ⟨-, -, rfl, rfl⟩ := linear_fulfill_buy_some hb
      obtain ⟨rfl, rfl⟩ := Prod.mk.inj (Except.ok.inj h)
      exact ⟨rfl, rfl⟩
  · rfl

/-- C4 (witness): the universal part applied at the concrete example
p = 1000, delta = 100, n = 3, result (2700, 700). -/
theorem C4_linear_buy_closed_form_witness :
    (2700 : Nat) = 3 * (2 * 1000 - (3 - 1) * 100) / 2 ∧
    (700 : Nat) = 1000 - 3 * 100 :=
  C4_linear_buy_closed_form.1
    ⟨1000, CURVE_KIND_LINEAR, 100, false, 0, 0, 0, 0⟩ 3 2700 700 rfl
    (by decide) rfl

/-- C5: for every LINEAR pool and n ≥ 1 with p < n*delta, buying n from the
pool fails with NumericOverflow (the `Except` error carries no partial
result and the price is never saturated to zero). -/
theorem C5_linear_buy_underflow_fails (pool : Pool) (n : Nat)
    (hc : pool.curve_type = CURVE_KIND_LINEAR) (_hn : 1 ≤ n)
    (hlt : pool.spot_price < n * pool.curve_delta) :
    get_sol_total_price_and_next_price pool n true =
      .error .NumericOverflow := by
  simp only [get_sol_total_price_and_next_price, hc, if_pos]
  cases hb : linear_fulfill_buy pool.spot_price pool.curve_delta n with
  | none => rfl
  | some r =>
    obtain ⟨t', nx'⟩ := r
    obtain ⟨-, hle, -, -⟩ := linear_fulfill_buy_some hb
    omega

/-- C5 (witness): p = 10, delta = 100, n = 1 underflows and fails. -/
theorem C5_linear_buy_underflow_fails_witness :
    get_sol_total_price_and_next_price
      ⟨10, CURVE_KIND_LINEAR, 100, false, 0, 0, 0, 0⟩ 1 true =
      .error .NumericOverflow :=
  C5_linear_buy_underflow_fails
    ⟨10, CURVE_KIND_LINEAR, 100, false, 0, 0, 0, 0⟩ 1 rfl (by decide)
    (by decide)

/-- C6: check_curve(1, 10001) fails with InvalidCurveDelta,
check_curve(1, 10000) succeeds, check_curve(2, 0) fails with
InvalidCurveType, and for LINEAR (curve_type 0) check_curve accepts every
curve_delta. -/
theorem C6_check_curve_cases :
    check_curve CURVE_KIND_EXP 10001 = .error .InvalidCurveDelta ∧
    check_curve CURVE_KIND_EXP 10000 = .ok () ∧
    check_curve 2 0 = .error .InvalidCurveType ∧
    ∀ curve_delta : Nat, check_curve CURVE_KIND_LINEAR curve_delta = .ok () := by
  refine ⟨rfl, rfl, rfl, fun curve_delta => ?_⟩
  simp [check_curve, CURVE_KIND_LINEAR]

/-- C7: try_close_pool zeroes the pool's backing bytes exactly when
sellside_orders_count = 0 and the buyside escrow balance is 0 and the fund
transfer succeeds; when either counter is nonzero it returns Ok leaving the
bytes identical, and when both are zero but the transfer fails the error
propagates without zeroing. -/
theorem C7_try_close_pool_frame (pool : Pool) (pool_data : List Nat)
    (bal : Nat) (transfer_ok : Bool) :
    (pool.sellside_orders_count = 0 → bal = 0 → transfer_ok = true →
      try_close_pool pool pool_data bal transfer_ok =
        .ok (List.replicate pool_data.length 0)) ∧
    (pool.sellside_orders_count ≠ 0 ∨ bal ≠ 0 →
      try_close_pool pool pool_data bal transfer_ok = .ok pool_data) ∧
    (pool.sellside_orders_count = 0 → bal = 0 → transfer_ok = false →
      try_close_pool pool pool_data bal transfer_ok =
        .error .TransferFailed) := by
  unfold try_close_pool
  refine ⟨fun h1 h2 h3 => ?_, fun h => ?_, fun h1 h2 h3 => ?_⟩
  · rw [if_neg (by omega), if_neg (by omega), if_pos h3]
  · rcases h with h | h
    · rw [if_pos h]
    · by_cases g1 : pool.sellside_orders_count ≠ 0
      · rw [if_pos g1]
      · rw [if_neg g1, if_pos h]
  · rw [if_neg (by omega), if_neg (by omega), h3, if_neg (by simp)]

/-- C7 (witness): an empty pool with bytes [1,2,3] is zeroed; a pool with
5 sell-side orders or balance 7 keeps its bytes; an empty pool with a
failing transfer errors. -/
theorem C7_try_close_pool_frame_witness :
    try_close_pool ⟨0, 0, 0, false, 0, 0, 0, 0⟩ [1, 2, 3] 0 true =
      .ok [0, 0, 0] ∧
    try_close_pool ⟨0, 0, 0, false, 0, 0, 0, 5⟩ [1, 2, 3] 7 true =
      .ok [1, 2, 3] ∧
    try_close_pool ⟨0, 0, 0, false, 0, 0, 0, 0⟩ [1, 2, 3] 0 false =
      .error .TransferFailed :=
  ⟨(C7_try_close_pool_frame ⟨0, 0, 0, false, 0, 0, 0, 0⟩ [1, 2, 3] 0 true).1
      rfl rfl rfl,
   (C7_try_close_pool_frame ⟨0, 0, 0, false, 0, 0, 0, 5⟩ [1, 2, 3] 7 true).2.1
      (Or.inl (by decide)),
   (C7_try_close_pool_frame ⟨0, 0, 0, false, 0, 0, 0, 0⟩ [1, 2, 3] 0 false).2.2
      rfl rfl rfl⟩

/-- C8: for every LINEAR pool and n ≥ 1 for which both calls succeed,
selling n yields next spot price p + n*delta, and buying n back from a pool
at that spot price returns exactly to the original spot price. -/
theorem C8_linear_sell_buy_inverts (pool : Pool) (n t1 p1 t2 p2 : Nat)
    (hc : pool.curve_type = CURVE_KIND_LINEAR) (_hn : 1 ≤ n)
    (hsell : get_sol_total_price_and_next_price pool n false = .ok (t1, p1))
    (hbuy : get_sol_total_price_and_next_price
      { pool with spot_price := p1 } n true = .ok (t2, p2)) :
    p1 = pool.spot_price + n * pool.curve_delta ∧ p2 = pool.spot_price := by
  simp only [get_sol_total_price_and_next_price, hc, if_pos] at hsell hbuy
  cases hs : linear_fulfill_sell pool.spot_price pool.curve_delta n with
  | none => rw [hs] at hsell; cases hsell
  | some r =>
    obtain ⟨ts, nxs⟩ := r
    rw [hs] at hsell
    obtain ⟨-, -, -, hnx⟩ := linear_fulfill_sell_some hs
    obtain ⟨hts, hp1⟩ := Prod.mk.inj (Except.ok.inj hsell)
    subst hp1
    cases hbv : linear_fulfill_buy nxs pool.curve_delta n with
    | none => rw [hbv] at hbuy; cases hbuy
    | some r2 =>
      obtain ⟨tb, nxb⟩ := r2
      rw [hbv] at hbuy
      obtain ⟨-, hle, -, hnxb⟩ := linear_fulfill_buy_some hbv
      obtain ⟨htb, hp2⟩ := Prod.mk.inj (Except.ok.inj hbuy)
      subst hp2
      omega

/-- C8 (witness): p = 1000, delta = 100, n = 2: selling gives next spot
1200, buying back from 1200 returns to 1000. -/
theorem C8_linear_sell_buy_inverts_witness :
    (1200 : Nat) = 1000 + 2 * 100 ∧ (1000 : Nat) = 1000 :=
  C8_linear_sell_buy_inverts
    ⟨1000, CURVE_KIND_LINEAR, 100, false, 0, 0, 0, 0⟩ 2 2100 1200 2300 1000
    rfl (by decide) rfl rfl

/-- C9: every successful update_pool execution yields a pool with
lp_fee_bp ≤ 10000 and unchanged referral_bp, whose stored
curve_type/curve_delta pair check_curve accepts; and the curve arguments
themselves passed check_curve (so no field is written when it fails). -/
theorem C9_update_pool_invariants (pool pool' : Pool)
    (args : UpdatePoolArgs) (h : update_pool pool args = .ok pool') :
    pool'.lp_fee_bp ≤ 10000 ∧
    pool'.referral_bp = pool.referral_bp ∧
    check_curve pool'.curve_type pool'.curve_delta = .ok () ∧
    check_curve args.curve_type args.curve_delta = .ok () := by
  unfold update_pool update_pool_accounts_check at h
  split_ifs at h with hbp
  cases hcc : check_curve args.curve_type args.curve_delta with
  | error e => unfold update_pool_handler at h; rw [hcc] at h; cases h
  | ok u =>
    obtain ⟨⟩ := u
    unfold update_pool_handler at h
    rw [hcc] at h
    obtain rfl := Except.ok.inj h
    refine ⟨hbp, ?_, ?_, ?_⟩ <;> simp [hcc]

/-- C9 (witness): a concrete successful update keeps referral_bp = 7,
stores lp_fee_bp = 10000 ≤ 10000 and a curve pair accepted by
check_curve. -/
theorem C9_update_pool_invariants_witness :
    (⟨100, 1, 50, true, 2, 10000, 7, 9⟩ : Pool).lp_fee_bp ≤ 10000 ∧
    (⟨100, 1, 50, true, 2, 10000, 7, 9⟩ : Pool).referral_bp =
      (⟨5, 0, 3, false, 0, 42, 7, 9⟩ : Pool).referral_bp ∧
    check_curve (⟨100, 1, 50, true, 2, 10000, 7, 9⟩ : Pool).curve_type
      (⟨100, 1, 50, true, 2, 10000, 7, 9⟩ : Pool).curve_delta = .ok () ∧
    check_curve (⟨100, 1, 50, true, 2, 10000⟩ : UpdatePoolArgs).curve_type
      (⟨100, 1, 50, true, 2, 10000⟩ : UpdatePoolArgs).curve_delta = .ok () :=
  C9_update_pool_invariants ⟨5, 0, 3, false, 0, 42, 7, 9⟩
    ⟨100, 1, 50, true, 2, 10000, 7, 9⟩ ⟨100, 1, 50, true, 2, 10000⟩ rfl

/-- C10 (counterexample): get_sol_referral_fee does not always return
Ok(floor(total_price * bp / 10000)): with referral_bp = 65535 (a u16
value) and total_price = 2^64 - 1 the floor exceeds u64 and the final
`as u64` cast truncates it. -/
theorem C10_fee_truncation_counterexample :
    get_sol_referral_fee ⟨0, 0, 0, false, 0, 0, 65535, 0⟩ (2 ^ 64 - 1) ≠
      .ok ((2 ^ 64 - 1) * 65535 / 10000) := by
  decide

/-- C10 (amended): for every well-formed pool and u64 total price, the fee
functions never fail (the widened u128 multiply of a u64 by a u16 and the
divide by the nonzero constant 10000 always succeed):
get_sol_referral_fee returns Ok(floor(total*bp/10000) mod 2^64) (the u64
truncation of the floor), get_sol_lp_fee returns the analogous value when
neither suppression rule applies, and when referral_bp ≤ 10000 the
referral fee is exactly floor(total*bp/10000). -/
theorem C10_fee_no_overflow (pool : Pool) (bal total : Nat)
    (hwf : pool.WF) (htotal : total < 2 ^ 64) :
    get_sol_referral_fee pool total =
      .ok (total * pool.referral_bp / 10000 % U64_MOD) ∧
    (1 ≤ pool.sellside_orders_count → pool.spot_price ≤ bal →
      get_sol_lp_fee pool bal total =
        .ok (total * pool.lp_fee_bp / 10000 % U64_MOD)) ∧
    (pool.referral_bp ≤ 10000 →
      get_sol_referral_fee pool total =
        .ok (total * pool.referral_bp / 10000)) := by
  obtain ⟨-, -, -, hlp, href, -⟩ := hwf
  have hmul : ∀ bp : Nat, bp < 2 ^ 16 →
      checked_mul_u128 total bp = some (total * bp) := by
    intro bp hbp
    unfold checked_mul_u128
    rw [if_pos]
    unfold U128_MOD
    calc total * bp < 2 ^ 64 * 2 ^ 16 :=
          Nat.mul_lt_mul_of_lt_of_lt htotal hbp
      _ ≤ 2 ^ 128 := by norm_num
  have hdiv : ∀ m : Nat, checked_div m 10000 = some (m / 10000) := by
    intro m
    unfold checked_div
    rw [if_neg (by norm_num)]
  have href_eq : get_sol_referral_fee pool total =
      .ok (total * pool.referral_bp / 10000 % U64_MOD) := by
    unfold get_sol_referral_fee
    simp only [hmul pool.referral_bp href, hdiv]
  refine ⟨href_eq, fun hcount hbal => ?_, fun hle => ?_⟩
  · unfold get_sol_lp_fee
    rw [if_neg (by omega), if_neg (by omega)]
    simp only [hmul pool.lp_fee_bp hlp, hdiv]
  · rw [href_eq]
    have hsmall : total * pool.referral_bp / 10000 < U64_MOD := by
      have h1 : total * pool.referral_bp ≤ total * 10000 :=
        Nat.mul_le_mul_left total hle
      have h2 : total * pool.referral_bp / 10000 ≤ total * 10000 / 10000 :=
        Nat.div_le_div_right h1
      rw [Nat.mul_div_cancel total (by norm_num : 0 < 10000)] at h2
      exact Nat.lt_of_le_of_lt h2 htotal
    rw [Nat.mod_eq_of_lt hsmall]

/-- C10 (witness): the amended theorem applied at a concrete pool with
referral_bp = 200, lp_fee_bp = 300, two sell-side orders, and
total = 12345. -/
theorem C10_fee_no_overflow_witness :
    (get_sol_referral_fee ⟨10, 0, 0, false, 0, 300, 200, 2⟩ 12345 =
      .ok (12345 * 200 / 10000 % U64_MOD) ∧
    (1 ≤ (2 : Nat) → (10 : Nat) ≤ 10 →
      get_sol_lp_fee ⟨10, 0, 0, false, 0, 300, 200, 2⟩ 10 12345 =
        .ok (12345 * 300 / 10000 % U64_MOD)) ∧
    ((200 : Nat) ≤ 10000 →
      get_sol_referral_fee ⟨10, 0, 0, false, 0, 300, 200, 2⟩ 12345 =
        .ok (12345 * 200 / 10000))) :=
  C10_fee_no_overflow ⟨10, 0, 0, false, 0, 300, 200, 2⟩ 10 12345
    (by decide) (by decide)

end Mmm
